import Mathlib

/-!
Shallow embedding of the execution core of the `bbqsrc/cucumber-rust`
repository (files `src/lib.rs` and `src/runner.rs`).

The repository carries two generations of the runner:

* `runner.rs` — the event-stream driver (`Runner::run_step`,
  `Runner::run_scenario`, `Runner::run_rule`, `StatsCollector`);
* `lib.rs` — the legacy driver (`Steps::run_test`, `Steps::run_scenario`,
  `Steps::run_scenarios`, `tag_rule_applies`) reporting through an
  `OutputVisitor`.

Pure data (the gherkin tree, events, stats) is embedded as inductive types;
the drivers are embedded as functions producing the ordered trace of the
events (or visitor calls) they emit.  The step handler itself, the panic
hook slot and the timeout race are abstracted by explicit data describing
their observable outcome, as noted on each definition.  Types declared in
modules of this crate that are not present under `src/` (the event enums
are fully determined by their uses in `runner.rs`; `ExampleValues`,
`Criteria` and `TEST_SKIPPED` are modelled from the spec) are noted where
they are defined.
-/

namespace Cucumber

/-- Captured stdout/stderr text of one step (`CapturedOutput` of the event
module; fields as read in `runner.rs` lines 389-404). -/
structure CapturedOutput where
  out : String
  err : String
deriving DecidableEq, Repr

/-- Source location of a panic (`Location` of the event module, built in
`runner.rs` lines 321-327). -/
structure Location where
  file : String
  line : Nat
  column : Nat
deriving DecidableEq, Repr

/-- Modelled from the spec: `Location::unknown`, the best-effort fallback
location ("unknown") used when the panic reported no location; the event
module defining it is not under `src/`.  Its concrete field values are
irrelevant to every claim. -/
def Location.unknown : Location :=
  { file := "<unknown>", line := 0, column := 0 }

/-- Abort location plus payload text (`PanicInfo` of the event module,
built by the hook installed in `runner.rs` lines 318-329). -/
structure PanicInfo where
  location : Location
  payload : String
deriving DecidableEq, Repr

/-- Modelled from the spec: `PanicInfo::unknown`, used when the panic slot
could not be read (`runner.rs` lines 419-434). -/
def PanicInfo.unknown : PanicInfo :=
  { location := Location.unknown, payload := "<unknown panic>" }

/-- `StepFailureKind` (event module; both variants as produced in
`runner.rs` lines 407 and 436). -/
inductive StepFailureKind
  | Panic (output : CapturedOutput) (info : PanicInfo)
  | TimedOut
deriving DecidableEq, Repr

/-- `FailureKind`, the coarse scenario/rule rollup (event module; produced
in `runner.rs` lines 543-544 and 615-621). -/
inductive FailureKind
  | Panic
  | TimedOut
deriving DecidableEq, Repr

/-- A Rust panic payload (`Box<dyn Any>`): either a downcastable string or
something else, exactly the distinction `coerce_error` makes. -/
inductive PanicPayload
  | text (s : String)
  | other
deriving DecidableEq, Repr

/-- `coerce_error` (`runner.rs` lines 78-86): downcast the payload to a
string, else a fixed message. -/
def coerce_error : PanicPayload → String
  | .text s => s
  | .other => "(Could not resolve panic payload)"

/-- Modelled from the spec: the reserved skip sentinel `TEST_SKIPPED`
(imported in `runner.rs` line 25 from the crate root, which is not under
`src/`).  Only its use as a comparison constant at `runner.rs` line 410
matters, never its exact text. -/
def TEST_SKIPPED : String := "Cucumber: test skipped"

/-- `TestError` (crate root): how a step future fails, as matched in
`runner.rs` lines 405-412. -/
inductive TestError
  | TimedOut
  | PanicError (payload : PanicPayload)
deriving DecidableEq, Repr

/-- `TestEvent` (event module): outcome of one `Runner::run_step`
invocation, as produced in `runner.rs` lines 305, 406-411, 436. -/
inductive TestEvent (W : Type)
  | Success (w : W) (output : CapturedOutput)
  | Failure (kind : StepFailureKind)
  | Skipped
  | Unimplemented
deriving DecidableEq, Repr

/-- Whether a `TestEvent` is `Success` (the only outcome the scenario loops
in `runner.rs` lines 607-612 / 655-660 continue past). -/
def TestEvent.isSuccess {W : Type} : TestEvent W → Bool
  | .Success _ _ => true
  | _ => false

/-- `StepEvent` (event module), exactly the variants emitted in
`runner.rs` lines 603-684 and consumed in lines 206-228. -/
inductive StepEvent
  | Starting
  | Unimplemented
  | Skipped
  | Passed (output : CapturedOutput)
  | Failed (kind : StepFailureKind)
deriving DecidableEq, Repr

/-- `gherkin::StepType` (`Given`/`When`/`Then`, used by the legacy bags in
`lib.rs` lines 177-191). -/
inductive StepType
  | Given
  | When
  | Then
deriving DecidableEq, Repr

/-- `gherkin::Step`: the fields this crate reads (`ty` in `lib.rs` 333,
`value` in `lib.rs` 409 / `runner.rs` 647, `docstring` in `lib.rs` 411). -/
structure Step where
  ty : StepType
  value : String
  docstring : Option String
deriving DecidableEq, Repr

/-- Alias so that constructors named `Step` below can still refer to the
gherkin step type. -/
abbrev GherkinStep := Step

/-- `gherkin::Table` as read by the examples expansion (`lib.rs` lines
402-434): header row, data rows, position. -/
structure Table where
  header : List String
  rows : List (List String)
  position : Nat × Nat
deriving DecidableEq, Repr

/-- `gherkin::Examples` as read by the examples expansion. -/
structure Examples where
  table : Table
deriving DecidableEq, Repr

/-- `gherkin::Scenario`: the fields this crate reads. -/
structure Scenario where
  name : String
  steps : List Step
  examples : Option Examples
  tags : Option (List String)
  position : Nat × Nat
deriving DecidableEq, Repr

/-- Alias so that constructors named `Scenario` below can still refer to
the gherkin scenario type. -/
abbrev GherkinScenario := Scenario

/-- `gherkin::Rule`: a named group of scenarios (`runner.rs` line 535). -/
structure Rule where
  name : String
  scenarios : List Scenario
deriving DecidableEq, Repr

/-- Alias so that constructors named `Rule` below can still refer to the
gherkin rule type. -/
abbrev GherkinRule := Rule

/-- `gherkin::Background`: steps shared by a feature's scenarios
(`runner.rs` line 598, `lib.rs` line 320). -/
structure Background where
  steps : List Step
deriving DecidableEq, Repr

/-- `gherkin::Feature`: the fields the drivers read. -/
structure Feature where
  name : String
  background : Option Background
  scenarios : List Scenario
  rules : List Rule
deriving DecidableEq, Repr

/-- Scope of a lifecycle hook, as tested by `criteria.context().is_feature
/ is_rule / is_scenario` in `runner.rs`. -/
inductive HookScope
  | feature
  | rule
  | scenario
deriving DecidableEq, Repr

/-- Modelled from the spec: `Criteria` = scope plus a predicate over
(feature, optional rule, optional scenario); `criteria.rs` is not under
`src/`, and the spec defines Criteria exactly this way (section 3). -/
structure Criteria where
  scope : HookScope
  eval : Feature → Option Rule → Option Scenario → Bool

/-- Leftmost, non-overlapping replacement of `pat` inside a character
list, `fuel` bounding the recursion (the fuel equals the list length at
the top call, and at least one character is consumed per call, so the
fuel never runs out).  This is the semantics of Rust `str::replace`. -/
def replaceAux (pat rep : List Char) : Nat → List Char → List Char
  | _, [] => []
  | 0, s => s
  | fuel + 1, c :: rest =>
    if pat.isPrefixOf (c :: rest) then
      rep ++ replaceAux pat rep fuel (List.drop (pat.length - 1) rest)
    else
      c :: replaceAux pat rep fuel rest

/-- Rust `str::replace` (every code path of this crate calls it with a
nonempty pattern of the shape `<name>`, so the empty-pattern guard is
never taken). -/
def strReplace (s pat rep : String) : String :=
  if pat.data.isEmpty then s
  else ⟨replaceAux pat.data rep.data s.data.length s.data⟩

/-- Rust `str::ends_with` (`lib.rs` line 271). -/
def strEndsWith (s suf : String) : Bool :=
  List.isSuffixOf suf.data s.data

/-- Rust `str::split(' ')` (`lib.rs` line 556): split at every single
space, keeping empty chunks. -/
def splitSpaces (s : String) : List String :=
  (s.data.foldr
    (fun c acc =>
      if c = ' ' then [] :: acc
      else
        match acc with
        | h :: t => (c :: h) :: t
        | [] => [[c]])
    [[]]).map (fun l => ⟨l⟩)

/-- Modelled from the spec: `ExampleValues`, the header-to-value mapping of
one examples row (defined in the crate root, which is not under `src/`;
the spec, sections 3 and 4.6, specifies empty-or-mapping with literal
textual substitution of `<name>` placeholders). -/
structure ExampleValues where
  keys : List String
  vals : List String
deriving DecidableEq, Repr

/-- `ExampleValues::empty()` (used at `runner.rs` line 539). -/
def ExampleValues.empty : ExampleValues :=
  { keys := [], vals := [] }

/-- `ExampleValues::is_empty()` (used at `runner.rs` line 646). -/
def ExampleValues.is_empty (e : ExampleValues) : Bool :=
  e.keys.isEmpty

/-- Modelled from the spec: `ExampleValues::insert_values` — substitute
every `<key>` occurrence by the matching value (used at `runner.rs` line
647). -/
def ExampleValues.insert_values (e : ExampleValues) (s : String) : String :=
  (e.keys.zip e.vals).foldl (fun acc kv => strReplace acc ("<" ++ kv.1 ++ ">") kv.2) s

/-- `ScenarioEvent` (event module), exactly the variants emitted in
`runner.rs` lines 575-700 and consumed in lines 183-204 and 541-548. -/
inductive ScenarioEvent
  | Starting (exampleValues : ExampleValues)
  | Background (step : GherkinStep) (event : StepEvent)
  | Step (step : GherkinStep) (event : StepEvent)
  | Skipped
  | Passed
  | Failed (kind : FailureKind)
deriving DecidableEq, Repr

/-- `RuleEvent` (event module), exactly the variants emitted in
`runner.rs` lines 513-564 and consumed in lines 162-181. -/
inductive RuleEvent
  | Starting
  | Scenario (scenario : GherkinScenario) (event : ScenarioEvent)
  | Skipped
  | Passed
  | Failed (kind : FailureKind)
deriving DecidableEq, Repr

/-- `Stats` (`runner.rs` lines 89-101).  The counters are `u32` in Rust;
they are embedded as `Nat`, which agrees with the source on every run
whose counts stay below `2^32` (beyond that the Rust build would abort on
overflow in debug mode). -/
structure Stats where
  total : Nat
  skipped : Nat
  passed : Nat
  failed : Nat
  timed_out : Nat
deriving DecidableEq, Repr

/-- `Default::default()` for `Stats`: all counters zero. -/
def Stats.init : Stats :=
  { total := 0, skipped := 0, passed := 0, failed := 0, timed_out := 0 }

/-- `StatsCollector::handle_step_event` (`runner.rs` lines 206-228),
restricted to the `steps` stats it updates: `total` is incremented for
every event, before the match; the match then bumps one outcome counter
(`Starting` bumps none). -/
def handle_step_event (stats : Stats) (event : StepEvent) : Stats :=
  let stats := { stats with total := stats.total + 1 }
  match event with
  | .Starting => stats
  | .Unimplemented => { stats with skipped := stats.skipped + 1 }
  | .Skipped => { stats with skipped := stats.skipped + 1 }
  | .Passed _ => { stats with passed := stats.passed + 1 }
  | .Failed (.Panic _ _) => { stats with failed := stats.failed + 1 }
  | .Failed .TimedOut => { stats with timed_out := stats.timed_out + 1 }

/-- `tag_rule_applies` (`lib.rs` lines 552-573): with no tag list the rule
applies; otherwise every space-separated chunk other than the literal
`and` / `or` must be contained in the tag list. -/
def tag_rule_applies (scenario : Scenario) (rule : String) : Bool :=
  match scenario.tags with
  | some tags =>
    (splitSpaces rule).all fun chunk =>
      chunk == "and" || chunk == "or" || tags.contains chunk
  | none => true

/-! ## The step invoker (`Runner::run_step`, `runner.rs` lines 300-439) -/

/-- The observable behaviour of one resolved handler invocation: how long
the produced future would run before completing (in the timer's units),
and what it completes with — the next world on normal completion, or the
panic payload when the local catch-unwind boundary converts the abort into
`TestError::PanicError` (`runner.rs` lines 357-374). -/
structure HandlerBehavior (W : Type) where
  duration : Nat
  result : Except PanicPayload W

/-- Process-wide state `run_step` mutates: whether the process panic hook
is the step hook installed by `panic::set_hook` (`runner.rs` line 318),
and how many scoped stream redirections are active (`shh::stdout()` /
`shh::stderr()` push one, dropping the handles pops it, `runner.rs` lines
308-312 and 391-402). -/
structure ProcState where
  hookIsStepHook : Bool
  captureDepth : Nat
deriving DecidableEq, Repr

/-- The racing of the step future against the timeout timer (`runner.rs`
lines 376-387): with a timeout configured, first completion wins
(`futures::future::select`, the timer polled first), so the timer wins
exactly when it fires no later than the handler completes; with no
timeout the future is awaited directly. -/
def raceResult {W : Type} (stepTimeout : Option Nat) (handler : HandlerBehavior W) :
    Except TestError W :=
  match stepTimeout with
  | some t =>
    if t ≤ handler.duration then Except.error TestError.TimedOut
    else handler.result.mapError TestError.PanicError
  | none => handler.result.mapError TestError.PanicError

/-- `Runner::run_step` (`runner.rs` lines 300-439) as a transformer of the
process state, returning the `TestEvent` plus the state after return.

* `resolved` — `self.functions.resolve(&step)`: `none` returns
  `Unimplemented` before any capture or hook installation (lines 303-306);
* `slotContent` — what reading the shared panic-info slot yields at
  classification time (lines 414-435): `none` covers the empty slot and
  every lock failure, all of which fall back to `PanicInfo::unknown`;
* `captured` — the text sitting in the redirection buffers (lines
  389-404); with capture disabled the strings stay empty.

The panic hook installed at line 318 is never uninstalled on any path of
the source function, which the state result makes explicit. -/
def run_step {W : Type} (stepTimeout : Option Nat) (enableCapture : Bool)
    (resolved : Option (HandlerBehavior W)) (slotContent : Option PanicInfo)
    (captured : CapturedOutput) (st : ProcState) : TestEvent W × ProcState :=
  match resolved with
  | none => (TestEvent.Unimplemented, st)
  | some handler =>
    let st1 : ProcState :=
      if enableCapture then { st with captureDepth := st.captureDepth + 1 } else st
    let st2 : ProcState := { st1 with hookIsStepHook := true }
    let result := raceResult stepTimeout handler
    let st3 : ProcState :=
      if enableCapture then { st2 with captureDepth := st2.captureDepth - 1 } else st2
    let output : CapturedOutput :=
      if enableCapture then captured else { out := "", err := "" }
    match result with
    | .ok w => (TestEvent.Success w output, st3)
    | .error .TimedOut => (TestEvent.Failure StepFailureKind.TimedOut, st3)
    | .error (.PanicError e) =>
      if coerce_error e = TEST_SKIPPED then (TestEvent.Skipped, st3)
      else
        (TestEvent.Failure
          (StepFailureKind.Panic output (slotContent.getD PanicInfo.unknown)), st3)

/-! ## The scenario driver (`Runner::run_scenario`, `runner.rs` lines 567-703) -/

/-- One entry of the ordered trace a scenario run produces: a yielded
`ScenarioEvent`, or the invocation of the i-th registered before / after
lifecycle hook. -/
inductive TraceItem
  | ev (e : ScenarioEvent)
  | hookBefore (i : Nat)
  | hookAfter (i : Nat)
deriving DecidableEq, Repr

/-- The configuration a scenario run reads from the `Runner` value:
`exec` abstracts `self.run_step(step, world)` by its observable outcome
per step and incoming world (`run_step` above models that call itself);
`newWorld` is the world `W::new().await.unwrap()` produces (its failure is
process-fatal by design and outside every claim); `before` / `after` are
the two ordered hook lists. -/
structure ScenarioRunner (W : Type) where
  exec : GherkinStep → W → TestEvent W
  newWorld : W
  before : List Criteria
  after : List Criteria

/-- The hook invocations one of the two hook loops of `run_scenario`
performs (`runner.rs` lines 584-592 and 689-697): hook i runs iff its
scope is `scenario` and its predicate accepts the triple, in list order. -/
def scenarioHookTrace (hooks : List Criteria) (mk : Nat → TraceItem)
    (feature : Feature) (rule : Option Rule) (scenario : Scenario) : List TraceItem :=
  hooks.enum.filterMap fun ic =>
    if ic.2.scope == HookScope.scenario && ic.2.eval feature rule (some scenario) then
      some (mk ic.1)
    else none

/-- The per-step preparation of the scenario loop (`runner.rs` lines
645-648): substitute the example values into the step text when the
example row is nonempty. -/
def substep (exampleValues : ExampleValues) (step : GherkinStep) : GherkinStep :=
  if exampleValues.is_empty then step
  else { step with value := exampleValues.insert_values step.value }

/-- One of the two step loops of `run_scenario` (`runner.rs` lines 599-638
background, 642-686 scenario; both have identical bodies up to the event
constructor `wrap`).  The world slot is `Option W` exactly like the `let
mut world = Some(..)` variable of the source, and `world.take().unwrap()`
is modelled faithfully: taking from an empty slot is the `none` (crash)
result of the whole loop.  Returns the events yielded, the final
`is_success`, and the final slot. -/
def stepLoop {W : Type} (exec : GherkinStep → W → TestEvent W)
    (wrap : GherkinStep → StepEvent → ScenarioEvent) :
    List Step → Option W → Option (List TraceItem × Bool × Option W)
  | [], slot => some ([], true, slot)
  | step :: rest, slot =>
    match slot with
    | none => none
    | some w =>
      match exec step w with
      | .Success w2 output =>
        match stepLoop exec wrap rest (some w2) with
        | none => none
        | some (tr, ok, sl) =>
          some (TraceItem.ev (wrap step StepEvent.Starting) ::
            TraceItem.ev (wrap step (StepEvent.Passed output)) :: tr, ok, sl)
      | .Failure (.Panic output info) =>
        some ([TraceItem.ev (wrap step StepEvent.Starting),
          TraceItem.ev (wrap step (StepEvent.Failed (StepFailureKind.Panic output info))),
          TraceItem.ev (ScenarioEvent.Failed FailureKind.Panic)], false, none)
      | .Failure .TimedOut =>
        some ([TraceItem.ev (wrap step StepEvent.Starting),
          TraceItem.ev (wrap step (StepEvent.Failed StepFailureKind.TimedOut)),
          TraceItem.ev (ScenarioEvent.Failed FailureKind.TimedOut)], false, none)
      | .Skipped =>
        some ([TraceItem.ev (wrap step StepEvent.Starting),
          TraceItem.ev (wrap step StepEvent.Skipped),
          TraceItem.ev ScenarioEvent.Skipped], false, none)
      | .Unimplemented =>
        some ([TraceItem.ev (wrap step StepEvent.Starting),
          TraceItem.ev (wrap step StepEvent.Unimplemented),
          TraceItem.ev ScenarioEvent.Skipped], false, none)

/-- `Runner::run_scenario` (`runner.rs` lines 567-703) as the ordered
trace it produces: `Starting`, the matching scenario-scope before hooks,
the background step loop, then (only if the background succeeded) the
scenario step loop on the example-substituted steps, then the matching
scenario-scope after hooks, and finally `Passed` iff `is_success` is still
set.  `none` would mean the source panicked on `world.take().unwrap()`. -/
def run_scenario {W : Type} (R : ScenarioRunner W) (feature : Feature)
    (rule : Option Rule) (scenario : Scenario) (exampleValues : ExampleValues) :
    Option (List TraceItem) :=
  let startTr := [TraceItem.ev (ScenarioEvent.Starting exampleValues)]
  let beforeTr := scenarioHookTrace R.before TraceItem.hookBefore feature rule scenario
  let afterTr := scenarioHookTrace R.after TraceItem.hookAfter feature rule scenario
  let bgSteps := match feature.background with
    | some b => b.steps
    | none => []
  match stepLoop R.exec ScenarioEvent.Background bgSteps (some R.newWorld) with
  | none => none
  | some (bgTr, bgOk, slot) =>
    if bgOk then
      match stepLoop R.exec ScenarioEvent.Step
          (scenario.steps.map (substep exampleValues)) slot with
      | none => none
      | some (scTr, scOk, _) =>
        some (startTr ++ beforeTr ++ bgTr ++ scTr ++ afterTr ++
          (if scOk then [TraceItem.ev ScenarioEvent.Passed] else []))
    else
      some (startTr ++ beforeTr ++ bgTr ++ afterTr)

/-! ## The rule driver (`Runner::run_rule`, `runner.rs` lines 508-565) -/

/-- The `ScenarioEvent`s of a scenario trace, in order (the events
`run_rule` observes from the inner stream; hook invocations are not
events). -/
def scenarioEventsOf (tr : List TraceItem) : List ScenarioEvent :=
  tr.filterMap fun item =>
    match item with
    | .ev e => some e
    | _ => none

/-- The `return_event` update `run_rule` performs on each observed
scenario event (`runner.rs` lines 542-548): a failure always overwrites,
`Passed` is recorded only while nothing is recorded, `Skipped` only
demotes a recorded `Passed`; everything else leaves the slot alone. -/
def ruleUpdate (acc : Option RuleEvent) (e : ScenarioEvent) : Option RuleEvent :=
  match e, acc with
  | .Failed .Panic, _ => some (RuleEvent.Failed FailureKind.Panic)
  | .Failed .TimedOut, _ => some (RuleEvent.Failed FailureKind.TimedOut)
  | .Passed, none => some RuleEvent.Passed
  | .Skipped, some RuleEvent.Passed => some RuleEvent.Skipped
  | _, _ => acc

/-- The terminal rule event (`runner.rs` line 563):
`return_event.unwrap_or(RuleEvent::Skipped)` after folding `ruleUpdate`
over every observed scenario event in stream order. -/
def ruleTerminal (evs : List ScenarioEvent) : RuleEvent :=
  (evs.foldl ruleUpdate none).getD RuleEvent.Skipped

/-- The scenario loop of `run_rule` (`runner.rs` lines 535-551): each
scenario of the rule is run with `ExampleValues::empty()` (rules do not
expand examples), in order; pairs each scenario with the events its
stream yielded. -/
def ruleScenarioRuns {W : Type} (R : ScenarioRunner W) (feature : Feature)
    (rule : Rule) : List Scenario → Option (List (Scenario × List ScenarioEvent))
  | [] => some []
  | s :: rest =>
    match run_scenario R feature (some rule) s ExampleValues.empty with
    | none => none
    | some tr =>
      match ruleScenarioRuns R feature rule rest with
      | none => none
      | some more => some ((s, scenarioEventsOf tr) :: more)

/-- `Runner::run_rule` (`runner.rs` lines 508-565) as the ordered list of
`RuleEvent`s it yields: `Starting`, every scenario's events wrapped in
`RuleEvent::Scenario`, and the terminal event.  The rule-scope hook loops
(lines 523-531 and 553-561) yield no events and are not part of the
event list.  Folding `ruleUpdate` over the concatenated events equals the
source's running update, which applies `ruleUpdate` to each event right
before yielding it. -/
def run_rule {W : Type} (R : ScenarioRunner W) (feature : Feature) (rule : Rule) :
    Option (List RuleEvent) :=
  match ruleScenarioRuns R feature rule rule.scenarios with
  | none => none
  | some runs =>
    let wrapped := runs.map (fun p => p.2.map (RuleEvent.Scenario p.1))
    let evs := (runs.map (fun p => p.2)).flatten
    some ([RuleEvent.Starting] ++ wrapped.flatten ++ [ruleTerminal evs])

/-! ## The legacy driver (`lib.rs`) -/

/-- `PanicDetails` (from the `panic_trap` module): payload text plus a
formatted location, as read in `lib.rs` lines 268-277. -/
structure PanicDetails where
  payload : String
  location : String
deriving DecidableEq, Repr

/-- `TestResult` (`lib.rs` lines 94-99).  `Fail` carries the panic details
and the captured stdout/stderr bytes (embedded as text). -/
inductive TestResult
  | Skipped
  | Unimplemented
  | Pass
  | Fail (details : PanicDetails) (stdout : String) (stderr : String)
deriving DecidableEq, Repr

/-- The classification tail of `Steps::run_test` (`lib.rs` lines 268-277),
given the result field of the `PanicTrap` the function builds: `Ok` is a
pass; a panic whose payload ends with the legacy skip sentinel is
`Skipped`; any other panic is `Fail` with the captured output. -/
def run_test (trapResult : Except PanicDetails Unit) (stdout stderr : String) :
    TestResult :=
  match trapResult with
  | .ok _ => TestResult.Pass
  | .error info =>
    if strEndsWith info.payload "cucumber test skipped" then TestResult.Skipped
    else TestResult.Fail info stdout stderr

/-- One call the legacy `Steps::run_scenario` makes on its collaborators,
in order: `OutputVisitor` visits, before/after helper functions, and the
actual `run_test` handler invocation. -/
inductive VisitItem
  | scenarioStart
  | beforeFn (i : Nat)
  | step (s : GherkinStep)
  | runTest (s : GherkinStep)
  | stepResult (s : GherkinStep) (r : TestResult)
  | scenarioSkipped
  | afterFn (i : Nat)
  | scenarioEnd
deriving DecidableEq, Repr

/-- The step loop of the legacy `Steps::run_scenario` (`lib.rs` lines
330-365).  `bag` tells whether `self.test_bag_for(step.ty).get(&*step.value)`
finds a handler; `test` abstracts `self.run_test(&mut world, ..)` by its
result and the world it leaves behind.  An unmatched step is reported
`Unimplemented` and (once) flips the scenario to skipping; a matched step
is reported `Skipped` without invoking its handler while skipping;
otherwise the handler runs and a `Fail` clears `is_success`, any other
non-`Pass` result flips to skipping with a skip notice.  Returns the
ordered visitor calls and the final `is_success`. -/
def legacyLoop {W : Type} (bag : GherkinStep → Bool)
    (test : GherkinStep → W → TestResult × W) :
    List Step → W → Bool → Bool → List VisitItem × Bool
  | [], _, isSuccess, _ => ([], isSuccess)
  | step :: rest, w, isSuccess, isSkipping =>
    if bag step = false then
      let tail := legacyLoop bag test rest w isSuccess true
      (VisitItem.step step :: VisitItem.stepResult step TestResult.Unimplemented ::
        ((if isSkipping then [] else [VisitItem.scenarioSkipped]) ++ tail.1), tail.2)
    else if isSkipping then
      let tail := legacyLoop bag test rest w isSuccess true
      (VisitItem.step step :: VisitItem.stepResult step TestResult.Skipped :: tail.1,
        tail.2)
    else
      match test step w with
      | (TestResult.Pass, w2) =>
        let tail := legacyLoop bag test rest w2 isSuccess false
        (VisitItem.step step :: VisitItem.runTest step ::
          VisitItem.stepResult step TestResult.Pass :: tail.1, tail.2)
      | (TestResult.Fail d so se, w2) =>
        let tail := legacyLoop bag test rest w2 false true
        (VisitItem.step step :: VisitItem.runTest step ::
          VisitItem.stepResult step (TestResult.Fail d so se) :: tail.1, tail.2)
      | (r, w2) =>
        let tail := legacyLoop bag test rest w2 isSuccess true
        (VisitItem.step step :: VisitItem.runTest step ::
          VisitItem.stepResult step r :: VisitItem.scenarioSkipped :: tail.1, tail.2)

/-- The legacy `Steps::run_scenario` (`lib.rs` lines 281-374): visit the
scenario, run every before helper, build the world (assumed to succeed;
its failure is process-fatal at lines 297-313), walk background steps then
scenario steps through one flat loop, run every after helper, visit the
scenario end; returns the visitor-call trace and `is_success`. -/
def steps_run_scenario {W : Type} (bag : GherkinStep → Bool)
    (test : GherkinStep → W → TestResult × W) (w0 : W) (beforeN afterN : Nat)
    (feature : Feature) (scenario : Scenario) : List VisitItem × Bool :=
  let bgSteps := match feature.background with
    | some b => b.steps
    | none => []
  let body := legacyLoop bag test (bgSteps ++ scenario.steps) w0 true false
  (VisitItem.scenarioStart :: ((List.range beforeN).map VisitItem.beforeFn ++
    body.1 ++ (List.range afterN).map VisitItem.afterFn ++ [VisitItem.scenarioEnd]),
    body.2)

/-! ## The examples expansion (`Steps::run_scenarios`, `lib.rs` lines 400-453) -/

/-- The per-step substitution of one examples row (`lib.rs` lines
406-416): for each header/value pair in order, replace `<header>` in the
step text and in the docstring. -/
def substitute_step (header row : List String) (step : GherkinStep) : GherkinStep :=
  (header.zip row).foldl
    (fun st kv =>
      { st with
        value := strReplace st.value ("<" ++ kv.1 ++ ">") kv.2,
        docstring := st.docstring.map fun d => strReplace d ("<" ++ kv.1 ++ ">") kv.2 })
    step

/-- The scenario-name substitution of one examples row (`lib.rs` lines
420-423). -/
def substitute_name (header row : List String) (name : String) : String :=
  (header.zip row).foldl (fun n kv => strReplace n ("<" ++ kv.1 ++ ">") kv.2) name

/-- The `Some(examples)` arm of `Steps::run_scenarios` (`lib.rs` lines
401-435), without the optional name filter: the concrete scenario built
for each examples row, in row order — substituted steps, substituted name
(with the row index appended when substitution left the name unchanged,
lines 424-427), cleared examples, copied tags, the table's position. -/
def expand_examples (scenario : Scenario) (ex : Examples) : List Scenario :=
  ex.table.rows.enum.map fun irow =>
    let steps := scenario.steps.map (substitute_step ex.table.header irow.2)
    let name0 := substitute_name ex.table.header irow.2 scenario.name
    let name := if name0 = scenario.name then scenario.name ++ " " ++ toString irow.1
      else name0
    { name := name, steps := steps, examples := none, tags := scenario.tags,
      position := ex.table.position }

/-! ## Formalizations of the claims' own wording

The definitions below are written from the claims' words, not from the
source; they exist to be compared with the source-translated definitions
above. -/

/-- Claim C1's stated aggregation of a rule's scenario events:
`Failed(Panic)` if any scenario failed by panic (panic takes precedence),
else `Failed(TimedOut)` if any timed out, else `Passed` if at least one
passed (none failed in this branch), else `Skipped`. -/
def claimRuleTerminal (evs : List ScenarioEvent) : RuleEvent :=
  if evs.contains (ScenarioEvent.Failed FailureKind.Panic) then
    RuleEvent.Failed FailureKind.Panic
  else if evs.contains (ScenarioEvent.Failed FailureKind.TimedOut) then
    RuleEvent.Failed FailureKind.TimedOut
  else if evs.contains ScenarioEvent.Passed then RuleEvent.Passed
  else RuleEvent.Skipped

/-- Whether a trace item is a terminal scenario event
(`Passed` / `Skipped` / `Failed`). -/
def isTerminalItem : TraceItem → Bool
  | .ev ScenarioEvent.Passed => true
  | .ev ScenarioEvent.Skipped => true
  | .ev (ScenarioEvent.Failed _) => true
  | _ => false

/-- Whether a trace item is an after-hook invocation. -/
def isAfterHookItem : TraceItem → Bool
  | .hookAfter _ => true
  | _ => false

/-- Claim C4's stated ordering for one scenario trace: no after-hook runs
before the terminal scenario event is emitted. -/
def terminalBeforeAfterHooks (tr : List TraceItem) : Bool :=
  (tr.takeWhile fun item => !isTerminalItem item).all fun item => !isAfterHookItem item

/-- Whether a legacy visitor call is the handler invocation of a step. -/
def isRunTestItem : VisitItem → Bool
  | .runTest _ => true
  | _ => false

/-- Whether a `StepEvent` is `Starting` (for the stats claims). -/
def StepEvent.isStarting : StepEvent → Bool
  | .Starting => true
  | _ => false

/-! ## Characterization of the rule terminal (for the amended claim C1) -/

/-- The failure kind of the last `ScenarioEvent.Failed` in the list, if
any. -/
def lastFailureKind : List ScenarioEvent → Option FailureKind
  | [] => none
  | ScenarioEvent.Failed k :: rest => some ((lastFailureKind rest).getD k)
  | _ :: rest => lastFailureKind rest

/-- Whether the list contains a `Passed` event with no `Skipped` event
anywhere after the first `Passed`. -/
def passedThenNoSkip : List ScenarioEvent → Bool
  | [] => false
  | ScenarioEvent.Passed :: rest => !rest.contains ScenarioEvent.Skipped
  | _ :: rest => passedThenNoSkip rest

/-- The aggregation the source actually computes, stated without a fold:
the failure kind of the last failing scenario if any scenario failed;
otherwise `Passed` iff some scenario passed and no scenario after the
first passing one was skipped; otherwise `Skipped`. -/
def amendedRuleTerminal (evs : List ScenarioEvent) : RuleEvent :=
  match lastFailureKind evs with
  | some k => RuleEvent.Failed k
  | none => if passedThenNoSkip evs then RuleEvent.Passed else RuleEvent.Skipped

/-- The scenario events wrapped in a rule event list (what `run_rule`
yielded as `RuleEvent::Scenario`). -/
def ruleScenarioEvents (rs : List RuleEvent) : List ScenarioEvent :=
  rs.filterMap fun r =>
    match r with
    | RuleEvent.Scenario _ e => some e
    | _ => none

/-- Whether a scenario event is a `Failed` terminal. -/
def isFailedEvent : ScenarioEvent → Bool
  | .Failed _ => true
  | _ => false

/-! ## Concrete instances used by counterexamples and witnesses -/

/-- A step whose handler will be made to panic. -/
def stepPa : GherkinStep :=
  { ty := StepType.Given, value := "pa", docstring := none }

/-- A step whose handler will be made to time out. -/
def stepTb : GherkinStep :=
  { ty := StepType.Given, value := "tb", docstring := none }

/-- A step whose handler will be made to pass. -/
def stepOk : GherkinStep :=
  { ty := StepType.Given, value := "ok", docstring := none }

/-- A second step for multi-step scenarios. -/
def stepTwo : GherkinStep :=
  { ty := StepType.Given, value := "two", docstring := none }

/-- A scenario with the single panicking step. -/
def scenPa : Scenario :=
  { name := "a", steps := [stepPa], examples := none, tags := none, position := (0, 0) }

/-- A scenario with the single timing-out step. -/
def scenTb : Scenario :=
  { name := "b", steps := [stepTb], examples := none, tags := none, position := (0, 0) }

/-- A scenario with the single passing step. -/
def scenOk : Scenario :=
  { name := "c", steps := [stepOk], examples := none, tags := none, position := (0, 0) }

/-- A scenario with no steps at all. -/
def scenNone : Scenario :=
  { name := "d", steps := [], examples := none, tags := none, position := (0, 0) }

/-- A two-step scenario (both steps unmatched by `cexBag`). -/
def scenTwoSteps : Scenario :=
  { name := "s", steps := [stepPa, stepTwo], examples := none, tags := none,
    position := (0, 0) }

/-- A feature with no background (the scenario under test is passed to the
driver directly). -/
def cexFeature : Feature :=
  { name := "f", background := none, scenarios := [], rules := [] }

/-- A step outcome function: the `pa` step panics, the `tb` step times
out, everything else passes. -/
def cexExec : GherkinStep → Unit → TestEvent Unit := fun st w =>
  if st.value = "pa" then
    TestEvent.Failure (StepFailureKind.Panic { out := "", err := "" } PanicInfo.unknown)
  else if st.value = "tb" then TestEvent.Failure StepFailureKind.TimedOut
  else TestEvent.Success w { out := "", err := "" }

/-- A runner with no hooks over `cexExec`. -/
def cexRunner : ScenarioRunner Unit :=
  { exec := cexExec, newWorld := (), before := [], after := [] }

/-- A runner whose resolver matches nothing. -/
def unimplRunner : ScenarioRunner Unit :=
  { exec := fun _ _ => TestEvent.Unimplemented, newWorld := (), before := [], after := [] }

/-- A runner whose steps all pass and with one always-matching
scenario-scope after hook. -/
def afterHookRunner : ScenarioRunner Unit :=
  { exec := fun _ w => TestEvent.Success w { out := "", err := "" },
    newWorld := (), before := [],
    after := [{ scope := HookScope.scenario, eval := fun _ _ _ => true }] }

/-- The rule holding the panicking scenario and then the timing-out
scenario. -/
def cexRule : Rule :=
  { name := "r", scenarios := [scenPa, scenTb] }

/-- The rule holding the single passing scenario. -/
def witRule : Rule :=
  { name := "w", scenarios := [scenOk] }

/-- A legacy step bag that matches nothing. -/
def cexBag : GherkinStep → Bool := fun _ => false

/-- A legacy test function that always passes. -/
def cexTest : GherkinStep → Unit → TestResult × Unit := fun _ w => (TestResult.Pass, w)

/-- The examples table of claim C7's counterexample: two rows carrying
the same value. -/
def dupExamples : Examples :=
  { table := { header := ["count"], rows := [["1"], ["1"]], position := (0, 0) } }

/-- The scenario of claim C7's counterexample: a placeholder in the name
and two example rows carrying the same value. -/
def dupScenario : Scenario :=
  { name := "have <count> items", steps := [], examples := some dupExamples,
    tags := none, position := (0, 0) }

/-- A tagged scenario for the tag-rule witness. -/
def taggedScenario : Scenario :=
  { name := "t", steps := [], examples := none, tags := some ["fast", "db"],
    position := (0, 0) }

/-- The examples table of the spec's outline example. -/
def outlineExamples : Examples :=
  { table := { header := ["count"], rows := [["1"], ["2"], ["3"]], position := (0, 0) } }

/-- The scenario of the spec's outline example: header `count`, rows 1, 2,
3, one templated step. -/
def outlineScenario : Scenario :=
  { name := "outline",
    steps := [{ ty := StepType.Given, value := "I have <count> items", docstring := none }],
    examples := some outlineExamples, tags := none, position := (0, 0) }

/-! # Theorems -/

/-- Claim C3, counterexample: `run_step` does not restore the original
failure-capture (panic) hook before returning.  At this concrete input the
process state enters `run_step` with the original hook installed
(`hookIsStepHook = false`) and leaves it with the step hook still
installed (`hookIsStepHook = true`): the source installs the hook at
`runner.rs` line 318 and has no code path uninstalling it. -/
theorem c3_counterexample :
    ((run_step (none : Option Nat) true
        (some { duration := 0, result := Except.ok (0 : Nat) }) none
        { out := "", err := "" }
        { hookIsStepHook := false, captureDepth := 0 }).2.hookIsStepHook = true) ∧
    (ProcState.hookIsStepHook { hookIsStepHook := false, captureDepth := 0 } = false) := by
  decide

/-- Claim C3 (amended): on every exit path of the step invoker — normal
completion, panic, skip and timeout alike — the scoped stream redirection
is fully released (the redirection depth returns to its entry value), but
the failure-capture hook is not restored: whenever a handler was resolved
the step hook stays installed on return, and only the unimplemented early
return leaves the hook untouched. -/
theorem c3_streams_restored_hook_kept (W : Type) (stepTimeout : Option Nat)
    (enableCapture : Bool) (resolved : Option (HandlerBehavior W))
    (slotContent : Option PanicInfo) (captured : CapturedOutput) (st : ProcState) :
    ((run_step stepTimeout enableCapture resolved slotContent captured st).2.captureDepth
        = st.captureDepth) ∧
    ((run_step stepTimeout enableCapture resolved slotContent captured st).2.hookIsStepHook
        = (if resolved.isSome then true else st.hookIsStepHook)) := by
  cases resolved with
  | none => simp [run_step]
  | some handler =>
    cases hr : raceResult stepTimeout handler with
    | ok w => cases enableCapture <;> simp [run_step, hr]
    | error e =>
      cases e with
      | TimedOut => cases enableCapture <;> simp [run_step, hr]
      | PanicError p =>
        by_cases hc : coerce_error p = TEST_SKIPPED <;>
          cases enableCapture <;> simp [run_step, hr, hc]

/-- Claim C3, witness for the amended statement at a concrete input. -/
theorem c3_witness :
    ((run_step (some 7) true (some { duration := 0, result := Except.ok (3 : Nat) })
        none { out := "o", err := "e" }
        { hookIsStepHook := false, captureDepth := 2 }).2.captureDepth = 2) ∧
    ((run_step (some 7) true (some { duration := 0, result := Except.ok (3 : Nat) })
        none { out := "o", err := "e" }
        { hookIsStepHook := false, captureDepth := 2 }).2.hookIsStepHook
      = (if (some { duration := 0, result := Except.ok (3 : Nat) }
            : Option (HandlerBehavior Nat)).isSome then true else false)) :=
  c3_streams_restored_hook_kept Nat (some 7) true
    (some { duration := 0, result := Except.ok 3 }) none { out := "o", err := "e" }
    { hookIsStepHook := false, captureDepth := 2 }

/-- Claim C5: a handler that terminates abnormally with a payload
textually equal to the reserved skip sentinel produces `Skipped` — never a
failure — in both drivers: in `Runner::run_step` a `PanicError` whose
coerced payload equals `TEST_SKIPPED` classifies as `TestEvent::Skipped`
(`runner.rs` lines 408-412), and in the legacy `Steps::run_test` a panic
whose payload is the legacy sentinel classifies as `TestResult::Skipped`
(`lib.rs` lines 268-277, an `ends_with` check that the equal payload
satisfies). -/
theorem c5_skip_sentinel (W : Type) :
    (∀ (stepTimeout : Option Nat) (enableCapture : Bool) (handler : HandlerBehavior W)
        (slotContent : Option PanicInfo) (captured : CapturedOutput) (st : ProcState)
        (p : PanicPayload),
        raceResult stepTimeout handler = Except.error (TestError.PanicError p) →
        coerce_error p = TEST_SKIPPED →
        (run_step stepTimeout enableCapture (some handler) slotContent captured st).1
          = TestEvent.Skipped) ∧
    (∀ (info : PanicDetails) (stdout stderr : String),
        info.payload = "cucumber test skipped" →
        run_test (Except.error info) stdout stderr = TestResult.Skipped) := by
  constructor
  · intro stepTimeout enableCapture handler slotContent captured st p hr hp
    simp [run_step, hr, hp]
  · intro info stdout stderr hp
    have h1 : strEndsWith "cucumber test skipped" "cucumber test skipped" = true := by
      decide
    simp [run_test, hp, h1]

/-- Claim C5, witness: both skip classifications at concrete inputs. -/
theorem c5_witness :
    ((run_step (none : Option Nat) false
        (some { duration := 0, result := Except.error (PanicPayload.text TEST_SKIPPED) })
        none { out := "", err := "" }
        { hookIsStepHook := false, captureDepth := 0 }).1 = (TestEvent.Skipped : TestEvent Nat)) ∧
    (run_test (Except.error { payload := "cucumber test skipped", location := "x:1:1" })
        "" "" = TestResult.Skipped) :=
  ⟨(c5_skip_sentinel Nat).1 none false
      { duration := 0, result := Except.error (PanicPayload.text TEST_SKIPPED) }
      none { out := "", err := "" } { hookIsStepHook := false, captureDepth := 0 }
      (PanicPayload.text TEST_SKIPPED) rfl rfl,
   (c5_skip_sentinel Nat).2 { payload := "cucumber test skipped", location := "x:1:1" }
      "" "" rfl⟩

/-- Claim C6: when a step timeout is configured and the timer wins the
race (it fires no later than the handler would complete), the step
outcome is `Failure(TimedOut)` — never `Failure(Panic)`; the `TimedOut`
variant carries no fields, hence no location information (`runner.rs`
lines 376-387 and 407). -/
theorem c6_timeout_race (W : Type) (t : Nat) (enableCapture : Bool)
    (handler : HandlerBehavior W) (slotContent : Option PanicInfo)
    (captured : CapturedOutput) (st : ProcState) (h : t ≤ handler.duration) :
    (run_step (some t) enableCapture (some handler) slotContent captured st).1
      = TestEvent.Failure StepFailureKind.TimedOut := by
  simp [run_step, raceResult, h]

/-- Claim C6, witness: timeout 50, handler blocking 200. -/
theorem c6_witness :
    (run_step (some 50) true (some { duration := 200, result := Except.ok (0 : Nat) })
        none { out := "", err := "" } { hookIsStepHook := false, captureDepth := 0 }).1
      = TestEvent.Failure StepFailureKind.TimedOut :=
  c6_timeout_race Nat 50 true { duration := 200, result := Except.ok 0 } none
    { out := "", err := "" } { hookIsStepHook := false, captureDepth := 0 }
    (by norm_num)

/-- Claim C8: the tag-matching predicate holds exactly when the scenario
has no tag list, or every space-separated chunk of the rule string other
than the literal connectives `and` / `or` is literally one of the
scenario's tags — no boolean expression is evaluated (`lib.rs` lines
552-573). -/
theorem c8_tag_rule (scenario : Scenario) (rule : String) :
    tag_rule_applies scenario rule = true ↔
      (scenario.tags = none ∨
        ∃ tags, scenario.tags = some tags ∧
          ∀ chunk ∈ splitSpaces rule,
            chunk = "and" ∨ chunk = "or" ∨ chunk ∈ tags) := by
  cases h : scenario.tags with
  | none => simp [tag_rule_applies, h]
  | some tags =>
    simp only [tag_rule_applies, h, List.all_eq_true]
    constructor
    · intro hall
      refine Or.inr ⟨tags, rfl, ?_⟩
      intro chunk hc
      have h3 := hall chunk hc
      simp only [Bool.or_eq_true, beq_iff_eq] at h3
      rcases h3 with (h1 | h2) | h3
      · exact Or.inl h1
      · exact Or.inr (Or.inl h2)
      · exact Or.inr (Or.inr (List.elem_iff.mp h3))
    · rintro (hnone | ⟨tags2, htags, hforall⟩)
      · exact absurd hnone (by simp)
      · intro chunk hc
        obtain rfl : tags = tags2 := Option.some.inj htags
        simp only [Bool.or_eq_true, beq_iff_eq]
        rcases hforall chunk hc with h1 | h2 | h3
        · exact Or.inl (Or.inl h1)
        · exact Or.inl (Or.inr h2)
        · exact Or.inr (List.elem_iff.mpr h3)

/-- Claim C8, witness: the predicate instantiated at a tagged scenario and
a rule mixing connectives and tags. -/
theorem c8_witness :
    tag_rule_applies taggedScenario "fast and db" = true ↔
      (taggedScenario.tags = none ∨
        ∃ tags, taggedScenario.tags = some tags ∧
          ∀ chunk ∈ splitSpaces "fast and db",
            chunk = "and" ∨ chunk = "or" ∨ chunk ∈ tags) :=
  c8_tag_rule taggedScenario "fast and db"

/-- Every `handle_step_event` call increments `total` by exactly one,
whatever the event. -/
theorem handle_step_event_total (evs : List StepEvent) : ∀ st : Stats,
    (evs.foldl handle_step_event st).total = st.total + evs.length := by
  induction evs with
  | nil => intro st; simp
  | cons e rest ih =>
    intro st
    rw [List.foldl_cons, ih]
    have he : (handle_step_event st e).total = st.total + 1 := by
      cases e with
      | Failed k => cases k <;> rfl
      | _ => rfl
    rw [he, List.length_cons]
    omega

/-- The four outcome counters together grow by one per non-`Starting`
event. -/
theorem handle_step_event_sum (evs : List StepEvent) : ∀ st : Stats,
    (evs.foldl handle_step_event st).passed + (evs.foldl handle_step_event st).skipped
        + (evs.foldl handle_step_event st).failed
        + (evs.foldl handle_step_event st).timed_out
      = st.passed + st.skipped + st.failed + st.timed_out
        + evs.countP (fun e => !e.isStarting) := by
  induction evs with
  | nil => intro st; simp
  | cons e rest ih =>
    intro st
    rw [List.foldl_cons, ih, List.countP_cons]
    cases e with
    | Starting => simp [handle_step_event, StepEvent.isStarting]
    | Unimplemented => simp [handle_step_event, StepEvent.isStarting]; omega
    | Skipped => simp [handle_step_event, StepEvent.isStarting]; omega
    | Passed o => simp [handle_step_event, StepEvent.isStarting]; omega
    | Failed k => cases k <;> simp [handle_step_event, StepEvent.isStarting] <;> omega

/-- A list of step events splits into its `Starting` and non-`Starting`
counts. -/
theorem countP_starting_split (evs : List StepEvent) :
    evs.length = evs.countP (fun e => e.isStarting)
      + evs.countP (fun e => !e.isStarting) := by
  induction evs with
  | nil => rfl
  | cons e rest ih =>
    rw [List.length_cons, List.countP_cons, List.countP_cons, ih]
    cases he : e.isStarting <;> simp [he] <;> omega

/-- Claim C9: the stats collector increments `steps.total` for every
observed `StepEvent`, `Starting` included (`runner.rs` line 207), so after
a run in which step `Starting` events and terminal step events are equal
in number (as every actual run is: each attempted step emits one of each),
`steps.total` is twice the number of attempted steps, and
`passed + skipped + failed + timed_out` is only half of `steps.total`. -/
theorem c9_step_stats (evs : List StepEvent)
    (h : evs.countP (fun e => e.isStarting) = evs.countP (fun e => !e.isStarting)) :
    ((evs.foldl handle_step_event Stats.init).total = evs.length) ∧
    ((evs.foldl handle_step_event Stats.init).passed
        + (evs.foldl handle_step_event Stats.init).skipped
        + (evs.foldl handle_step_event Stats.init).failed
        + (evs.foldl handle_step_event Stats.init).timed_out
      = evs.countP (fun e => !e.isStarting)) ∧
    ((evs.foldl handle_step_event Stats.init).total
      = 2 * evs.countP (fun e => !e.isStarting)) := by
  have htot := handle_step_event_total evs Stats.init
  have hsum := handle_step_event_sum evs Stats.init
  have hsplit := countP_starting_split evs
  have hz : Stats.init.total = 0 ∧ Stats.init.passed = 0 ∧ Stats.init.skipped = 0 ∧
      Stats.init.failed = 0 ∧ Stats.init.timed_out = 0 := ⟨rfl, rfl, rfl, rfl, rfl⟩
  refine ⟨by omega, by omega, by omega⟩

/-- Claim C9, witness: two attempted steps (one passed, one skipped)
produce four events, `steps.total = 4` and an outcome sum of 2. -/
theorem c9_witness :
    (([StepEvent.Starting, StepEvent.Passed { out := "", err := "" },
        StepEvent.Starting, StepEvent.Skipped].foldl handle_step_event Stats.init).total
      = [StepEvent.Starting, StepEvent.Passed { out := "", err := "" },
        StepEvent.Starting, StepEvent.Skipped].length) ∧
    (([StepEvent.Starting, StepEvent.Passed { out := "", err := "" },
        StepEvent.Starting, StepEvent.Skipped].foldl handle_step_event Stats.init).passed
      + ([StepEvent.Starting, StepEvent.Passed { out := "", err := "" },
        StepEvent.Starting, StepEvent.Skipped].foldl handle_step_event Stats.init).skipped
      + ([StepEvent.Starting, StepEvent.Passed { out := "", err := "" },
        StepEvent.Starting, StepEvent.Skipped].foldl handle_step_event Stats.init).failed
      + ([StepEvent.Starting, StepEvent.Passed { out := "", err := "" },
        StepEvent.Starting, StepEvent.Skipped].foldl handle_step_event Stats.init).timed_out
      = [StepEvent.Starting, StepEvent.Passed { out := "", err := "" },
        StepEvent.Starting, StepEvent.Skipped].countP (fun e => !e.isStarting)) ∧
    (([StepEvent.Starting, StepEvent.Passed { out := "", err := "" },
        StepEvent.Starting, StepEvent.Skipped].foldl handle_step_event Stats.init).total
      = 2 * [StepEvent.Starting, StepEvent.Passed { out := "", err := "" },
        StepEvent.Starting, StepEvent.Skipped].countP (fun e => !e.isStarting)) :=
  c9_step_stats
    [StepEvent.Starting, StepEvent.Passed { out := "", err := "" },
      StepEvent.Starting, StepEvent.Skipped] (by decide)

/-- A step loop started on a full world slot never crashes, and leaves a
full slot whenever it ends successfully. -/
theorem stepLoop_some {W : Type} (exec : GherkinStep → W → TestEvent W)
    (wrap : GherkinStep → StepEvent → ScenarioEvent) :
    ∀ (steps : List Step) (w : W),
      ∃ tr ok slot, stepLoop exec wrap steps (some w) = some (tr, ok, slot) ∧
        (ok = true → slot.isSome = true) := by
  intro steps
  induction steps with
  | nil =>
    intro w
    exact ⟨[], true, some w, rfl, fun _ => rfl⟩
  | cons s rest ih =>
    intro w
    cases he : exec s w with
    | Success w2 output =>
      obtain ⟨tr, ok, slot, heq, himp⟩ := ih w2
      refine ⟨TraceItem.ev (wrap s StepEvent.Starting) ::
        TraceItem.ev (wrap s (StepEvent.Passed output)) :: tr, ok, slot, ?_, himp⟩
      simp [stepLoop, he, heq]
    | Failure k =>
      cases k with
      | Panic output info =>
        exact ⟨[TraceItem.ev (wrap s StepEvent.Starting),
          TraceItem.ev (wrap s (StepEvent.Failed (StepFailureKind.Panic output info))),
          TraceItem.ev (ScenarioEvent.Failed FailureKind.Panic)], false, none,
          by simp [stepLoop, he], by simp⟩
      | TimedOut =>
        exact ⟨[TraceItem.ev (wrap s StepEvent.Starting),
          TraceItem.ev (wrap s (StepEvent.Failed StepFailureKind.TimedOut)),
          TraceItem.ev (ScenarioEvent.Failed FailureKind.TimedOut)], false, none,
          by simp [stepLoop, he], by simp⟩
    | Skipped =>
      exact ⟨[TraceItem.ev (wrap s StepEvent.Starting),
        TraceItem.ev (wrap s StepEvent.Skipped),
        TraceItem.ev ScenarioEvent.Skipped], false, none,
        by simp [stepLoop, he], by simp⟩
    | Unimplemented =>
      exact ⟨[TraceItem.ev (wrap s StepEvent.Starting),
        TraceItem.ev (wrap s StepEvent.Unimplemented),
        TraceItem.ev ScenarioEvent.Skipped], false, none,
        by simp [stepLoop, he], by simp⟩

/-- Claim C10: the world slot is full at every step invocation, so the
`world.take().unwrap()` of both step loops never panics: the driver never
crashes (first conjunct, via the slot invariant of the second conjunct:
any step loop started on a full slot returns, and returns a full slot
whenever every one of its steps succeeded — which is what gates the
scenario loop after the background loop). -/
theorem c10_world_slot (W : Type) (R : ScenarioRunner W) :
    (∀ (feature : Feature) (rule : Option Rule) (scenario : Scenario)
        (exampleValues : ExampleValues),
        (run_scenario R feature rule scenario exampleValues).isSome = true) ∧
    (∀ (wrap : GherkinStep → StepEvent → ScenarioEvent) (steps : List Step) (w : W),
        ∃ tr ok slot, stepLoop R.exec wrap steps (some w) = some (tr, ok, slot) ∧
          (ok = true → slot.isSome = true)) := by
  constructor
  · intro feature rule scenario exampleValues
    obtain ⟨tr, ok, slot, heq, himp⟩ := stepLoop_some R.exec ScenarioEvent.Background
      (match feature.background with | some b => b.steps | none => []) R.newWorld
    cases ok with
    | false => simp [run_scenario, heq]
    | true =>
      obtain ⟨w2, hw2⟩ := Option.isSome_iff_exists.mp (himp rfl)
      subst hw2
      obtain ⟨tr2, ok2, slot2, heq2, _⟩ := stepLoop_some R.exec ScenarioEvent.Step
        (scenario.steps.map (substep exampleValues)) w2
      simp [run_scenario, heq, heq2]
  · intro wrap steps w
    exact stepLoop_some R.exec wrap steps w

/-- Claim C10, witness: a concrete scenario run returns a trace. -/
theorem c10_witness :
    (run_scenario cexRunner cexFeature none scenPa ExampleValues.empty).isSome = true :=
  (c10_world_slot Unit cexRunner).1 cexFeature none scenPa ExampleValues.empty

/-- Claim C2, counterexample: in the legacy driver (`Steps::run_scenario`,
`lib.rs` lines 330-365) a scenario whose first step is unmatched does NOT
stop emitting step events: at this concrete input (two steps, neither
matched by the resolver) the visitor trace carries a `visit_step` and a
`visit_step_result` for the second step after the first step's
`Unimplemented`, contradicting the claimed "exactly one
StepEvent::Unimplemented, zero further step events". -/
theorem c2_counterexample :
    ((steps_run_scenario cexBag cexTest () 0 0 cexFeature scenTwoSteps).1 =
      [VisitItem.scenarioStart,
       VisitItem.step stepPa, VisitItem.stepResult stepPa TestResult.Unimplemented,
       VisitItem.scenarioSkipped,
       VisitItem.step stepTwo, VisitItem.stepResult stepTwo TestResult.Unimplemented,
       VisitItem.scenarioEnd]) ∧
    VisitItem.step stepTwo ∈
      (steps_run_scenario cexBag cexTest () 0 0 cexFeature scenTwoSteps).1 := by
  decide

/-- Claim C2 (amended): in the event-stream driver the first step whose
outcome is not `Success` halts the scenario outright — the remaining
steps are never consulted (first conjunct) and a scenario whose first
step is unmatched yields exactly one `StepEvent::Unimplemented`, no
further step events and a `Skipped` terminal (second conjunct); in the
legacy driver the first non-success outcome stops handler invocation
(third conjunct: while the skipping flag is set no handler ever runs),
but each remaining step is still visited and reported as `Skipped` or
`Unimplemented`, so step events continue to be emitted there. -/
theorem c2_skip_cascade (W : Type) :
    (∀ (exec : GherkinStep → W → TestEvent W)
        (wrap : GherkinStep → StepEvent → ScenarioEvent) (s : GherkinStep)
        (rest : List Step) (w : W),
        (exec s w).isSuccess = false →
        stepLoop exec wrap (s :: rest) (some w) = stepLoop exec wrap [s] (some w)) ∧
    (∀ (R : ScenarioRunner W) (feature : Feature) (rule : Option Rule)
        (scenario : Scenario) (s1 : GherkinStep) (rest : List Step)
        (exampleValues : ExampleValues),
        feature.background = none →
        scenario.steps = s1 :: rest →
        R.exec (substep exampleValues s1) R.newWorld = TestEvent.Unimplemented →
        run_scenario R feature rule scenario exampleValues =
          some ([TraceItem.ev (ScenarioEvent.Starting exampleValues)] ++
            scenarioHookTrace R.before TraceItem.hookBefore feature rule scenario ++
            [TraceItem.ev
              (ScenarioEvent.Step (substep exampleValues s1) StepEvent.Starting),
             TraceItem.ev
              (ScenarioEvent.Step (substep exampleValues s1) StepEvent.Unimplemented),
             TraceItem.ev ScenarioEvent.Skipped] ++
            scenarioHookTrace R.after TraceItem.hookAfter feature rule scenario)) ∧
    (∀ (bag : GherkinStep → Bool) (test : GherkinStep → W → TestResult × W)
        (steps : List Step) (w : W) (ok : Bool),
        (legacyLoop bag test steps w ok true).1.countP isRunTestItem = 0) := by
  refine ⟨?_, ?_, ?_⟩
  · intro exec wrap s rest w h
    cases he : exec s w with
    | Success w2 output => simp [TestEvent.isSuccess, he] at h
    | Failure k => cases k <;> simp [stepLoop, he]
    | Skipped => simp [stepLoop, he]
    | Unimplemented => simp [stepLoop, he]
  · intro R feature rule scenario s1 rest exampleValues hbg hsteps hexec
    simp [run_scenario, stepLoop, hbg, hsteps, hexec]
  · intro bag test steps
    induction steps with
    | nil => intro w ok; simp [legacyLoop, List.countP_nil]
    | cons s rest ih =>
      intro w ok
      cases hb : bag s with
      | false => simp [legacyLoop, hb, List.countP_cons, isRunTestItem, ih]
      | true => simp [legacyLoop, hb, List.countP_cons, isRunTestItem, ih]

/-- Claim C2, witness for the amended statement: a one-step scenario whose
step is unmatched produces the exact four-event trace. -/
theorem c2_witness :
    run_scenario unimplRunner cexFeature none scenPa ExampleValues.empty =
      some ([TraceItem.ev (ScenarioEvent.Starting ExampleValues.empty)] ++
        scenarioHookTrace unimplRunner.before TraceItem.hookBefore cexFeature none
          scenPa ++
        [TraceItem.ev
          (ScenarioEvent.Step (substep ExampleValues.empty stepPa) StepEvent.Starting),
         TraceItem.ev
          (ScenarioEvent.Step (substep ExampleValues.empty stepPa)
            StepEvent.Unimplemented),
         TraceItem.ev ScenarioEvent.Skipped] ++
        scenarioHookTrace unimplRunner.after TraceItem.hookAfter cexFeature none
          scenPa) :=
  (c2_skip_cascade Unit).2.1 unimplRunner cexFeature none scenPa stepPa []
    ExampleValues.empty rfl rfl rfl

/-- A boolean `all` over non-terminality, unfolded to membership. -/
theorem all_not_terminal_iff (tr : List TraceItem) :
    (tr.all fun item => !isTerminalItem item) = true ↔
      ∀ x ∈ tr, isTerminalItem x = false := by
  simp [List.all_eq_true, Bool.not_eq_true']

/-- Hook-trace items are never terminal events, provided the item builder
only builds hook items. -/
theorem scenarioHookTrace_not_terminal (hooks : List Criteria) (mk : Nat → TraceItem)
    (hmk : ∀ i, isTerminalItem (mk i) = false) (feature : Feature)
    (rule : Option Rule) (scenario : Scenario) :
    ∀ x ∈ scenarioHookTrace hooks mk feature rule scenario,
      isTerminalItem x = false := by
  intro x hx
  simp only [scenarioHookTrace, List.mem_filterMap] at hx
  obtain ⟨ic, _, hic⟩ := hx
  by_cases hcond : (ic.2.scope == HookScope.scenario &&
      ic.2.eval feature rule (some scenario)) = true
  · simp only [hcond, if_true, Option.some.injEq] at hic
    subst hic
    exact hmk ic.1
  · simp [hcond] at hic

/-- Shape of a step loop trace, for a wrapper that never builds terminal
events (both actual wrappers, `Background` and `Step`, are such): a
successful loop emits no terminal scenario event; a failed loop ends with
exactly one terminal event, and nothing before it is terminal. -/
theorem stepLoop_shape {W : Type} (exec : GherkinStep → W → TestEvent W)
    (wrap : GherkinStep → StepEvent → ScenarioEvent)
    (hwrap : ∀ s e, isTerminalItem (TraceItem.ev (wrap s e)) = false) :
    ∀ (steps : List Step) (slot : Option W) (tr : List TraceItem) (ok : Bool)
      (sl : Option W),
      stepLoop exec wrap steps slot = some (tr, ok, sl) →
      (ok = true → tr.all (fun item => !isTerminalItem item) = true) ∧
      (ok = false → ∃ tr2 t, tr = tr2 ++ [TraceItem.ev t] ∧
          isTerminalItem (TraceItem.ev t) = true ∧
          tr2.all (fun item => !isTerminalItem item) = true) := by
  intro steps
  induction steps with
  | nil =>
    intro slot tr ok sl heq
    simp only [stepLoop, Option.some.injEq, Prod.mk.injEq] at heq
    obtain ⟨rfl, rfl, rfl⟩ := heq
    exact ⟨fun _ => by simp, fun hfalse => by simp at hfalse⟩
  | cons s rest ih =>
    intro slot tr ok sl heq
    cases slot with
    | none => simp [stepLoop] at heq
    | some w =>
      cases he : exec s w with
      | Success w2 output =>
        simp only [stepLoop, he] at heq
        rcases hrec : stepLoop exec wrap rest (some w2) with _ | ⟨tr3, ok3, sl3⟩ <;>
          rw [hrec] at heq
        · simp at heq
        · simp only [Option.some.injEq, Prod.mk.injEq] at heq
          obtain ⟨rfl, rfl, rfl⟩ := heq
          obtain ⟨ihT, ihF⟩ := ih (some w2) tr3 ok3 sl3 hrec
          constructor
          · intro hok
            rw [all_not_terminal_iff]
            have h := (all_not_terminal_iff tr3).mp (ihT hok)
            intro x hx
            rcases List.mem_cons.mp hx with rfl | hx2
            · exact hwrap s StepEvent.Starting
            · rcases List.mem_cons.mp hx2 with rfl | hx3
              · exact hwrap s (StepEvent.Passed output)
              · exact h x hx3
          · intro hok
            obtain ⟨tr2, t, rfl, ht, hall⟩ := ihF hok
            refine ⟨TraceItem.ev (wrap s StepEvent.Starting) ::
              TraceItem.ev (wrap s (StepEvent.Passed output)) :: tr2, t, by simp, ht, ?_⟩
            rw [all_not_terminal_iff]
            have h := (all_not_terminal_iff tr2).mp hall
            intro x hx
            rcases List.mem_cons.mp hx with rfl | hx2
            · exact hwrap s StepEvent.Starting
            · rcases List.mem_cons.mp hx2 with rfl | hx3
              · exact hwrap s (StepEvent.Passed output)
              · exact h x hx3
      | Failure k =>
        cases k with
        | Panic output info =>
          simp only [stepLoop, he, Option.some.injEq, Prod.mk.injEq] at heq
          obtain ⟨rfl, rfl, rfl⟩ := heq
          refine ⟨fun hok => by simp at hok, fun _ => ?_⟩
          exact ⟨[TraceItem.ev (wrap s StepEvent.Starting),
            TraceItem.ev (wrap s (StepEvent.Failed (StepFailureKind.Panic output info)))],
            ScenarioEvent.Failed FailureKind.Panic, rfl, rfl,
            by simp [List.all_cons, hwrap]⟩
        | TimedOut =>
          simp only [stepLoop, he, Option.some.injEq, Prod.mk.injEq] at heq
          obtain ⟨rfl, rfl, rfl⟩ := heq
          refine ⟨fun hok => by simp at hok, fun _ => ?_⟩
          exact ⟨[TraceItem.ev (wrap s StepEvent.Starting),
            TraceItem.ev (wrap s (StepEvent.Failed StepFailureKind.TimedOut))],
            ScenarioEvent.Failed FailureKind.TimedOut, rfl, rfl,
            by simp [List.all_cons, hwrap]⟩
      | Skipped =>
        simp only [stepLoop, he, Option.some.injEq, Prod.mk.injEq] at heq
        obtain ⟨rfl, rfl, rfl⟩ := heq
        refine ⟨fun hok => by simp at hok, fun _ => ?_⟩
        exact ⟨[TraceItem.ev (wrap s StepEvent.Starting),
          TraceItem.ev (wrap s StepEvent.Skipped)],
          ScenarioEvent.Skipped, rfl, rfl, by simp [List.all_cons, hwrap]⟩
      | Unimplemented =>
        simp only [stepLoop, he, Option.some.injEq, Prod.mk.injEq] at heq
        obtain ⟨rfl, rfl, rfl⟩ := heq
        refine ⟨fun hok => by simp at hok, fun _ => ?_⟩
        exact ⟨[TraceItem.ev (wrap s StepEvent.Starting),
          TraceItem.ev (wrap s StepEvent.Unimplemented)],
          ScenarioEvent.Skipped, rfl, rfl, by simp [List.all_cons, hwrap]⟩

/-- Claim C4, counterexample: for a passing scenario the terminal event is
NOT emitted before the after-hooks — `runner.rs` runs the after-hook loop
(lines 689-697) before `yield ScenarioEvent::Passed` (lines 699-701).  At
this concrete input (a passing scenario with one matching scenario-scope
after hook) the trace is `[Starting, after-hook 0, Passed]`, so an
after-hook runs before the terminal event. -/
theorem c4_counterexample :
    ((run_scenario afterHookRunner cexFeature none scenNone ExampleValues.empty).map
      terminalBeforeAfterHooks = some false) ∧
    (run_scenario afterHookRunner cexFeature none scenNone ExampleValues.empty =
      some [TraceItem.ev (ScenarioEvent.Starting ExampleValues.empty),
        TraceItem.hookAfter 0, TraceItem.ev ScenarioEvent.Passed]) := by
  decide

/-- Claim C4 (amended): every scenario run executes all matching
scenario-scope after-hooks, in registration order, before the driver
finishes; for failed and skipped scenarios the terminal event is the last
event before the after-hooks, while for passed scenarios the after-hooks
run first and the terminal `Passed` event is emitted after them, as the
last item of the trace. -/
theorem c4_after_hook_order (W : Type) (R : ScenarioRunner W) (feature : Feature)
    (rule : Option Rule) (scenario : Scenario) (exampleValues : ExampleValues) :
    ∃ core ok,
      run_scenario R feature rule scenario exampleValues =
        some (core ++
          scenarioHookTrace R.after TraceItem.hookAfter feature rule scenario ++
          (if ok then [TraceItem.ev ScenarioEvent.Passed] else [])) ∧
      (ok = false → ∃ core2 t, core = core2 ++ [TraceItem.ev t] ∧
          isTerminalItem (TraceItem.ev t) = true) ∧
      (ok = true → core.all (fun item => !isTerminalItem item) = true) := by
  have hwrapB : ∀ (s : GherkinStep) (e : StepEvent),
      isTerminalItem (TraceItem.ev (ScenarioEvent.Background s e)) = false :=
    fun _ _ => rfl
  have hwrapS : ∀ (s : GherkinStep) (e : StepEvent),
      isTerminalItem (TraceItem.ev (ScenarioEvent.Step s e)) = false :=
    fun _ _ => rfl
  obtain ⟨tr, ok, slot, heq, himp⟩ := stepLoop_some R.exec ScenarioEvent.Background
    (match feature.background with | some b => b.steps | none => []) R.newWorld
  obtain ⟨shT, shF⟩ := stepLoop_shape R.exec ScenarioEvent.Background hwrapB _ _ _ _ _ heq
  cases ok with
  | false =>
    refine ⟨[TraceItem.ev (ScenarioEvent.Starting exampleValues)] ++
      scenarioHookTrace R.before TraceItem.hookBefore feature rule scenario ++ tr,
      false, ?_, ?_, ?_⟩
    · simp [run_scenario, heq]
    · intro _
      obtain ⟨tr2, t, rfl, ht, _⟩ := shF rfl
      exact ⟨[TraceItem.ev (ScenarioEvent.Starting exampleValues)] ++
        scenarioHookTrace R.before TraceItem.hookBefore feature rule scenario ++ tr2,
        t, by simp, ht⟩
    · intro hok; simp at hok
  | true =>
    obtain ⟨w2, hw2⟩ := Option.isSome_iff_exists.mp (himp rfl)
    subst hw2
    obtain ⟨tr2, ok2, slot2, heq2, _⟩ := stepLoop_some R.exec ScenarioEvent.Step
      (scenario.steps.map (substep exampleValues)) w2
    obtain ⟨shT2, shF2⟩ := stepLoop_shape R.exec ScenarioEvent.Step hwrapS _ _ _ _ _ heq2
    refine ⟨[TraceItem.ev (ScenarioEvent.Starting exampleValues)] ++
      scenarioHookTrace R.before TraceItem.hookBefore feature rule scenario ++ tr ++ tr2,
      ok2, ?_, ?_, ?_⟩
    · simp [run_scenario, heq, heq2]
    · intro hok2
      obtain ⟨tr3, t, rfl, ht, _⟩ := shF2 hok2
      exact ⟨[TraceItem.ev (ScenarioEvent.Starting exampleValues)] ++
        scenarioHookTrace R.before TraceItem.hookBefore feature rule scenario ++ tr ++
          tr3, t, by simp, ht⟩
    · intro hok2
      have h1 := (all_not_terminal_iff tr).mp (shT rfl)
      have h2 := (all_not_terminal_iff tr2).mp (shT2 hok2)
      rw [all_not_terminal_iff]
      intro x hx
      have hx2 : x = TraceItem.ev (ScenarioEvent.Starting exampleValues) ∨
          x ∈ scenarioHookTrace R.before TraceItem.hookBefore feature rule scenario ∨
          x ∈ tr ∨ x ∈ tr2 := by
        simpa [List.mem_append, List.mem_singleton, or_assoc] using hx
      rcases hx2 with rfl | hx2 | hx2 | hx2
      · rfl
      · exact scenarioHookTrace_not_terminal R.before TraceItem.hookBefore
          (fun _ => rfl) feature rule scenario x hx2
      · exact h1 x hx2
      · exact h2 x hx2

/-- Claim C4, witness for the amended statement at a concrete input. -/
theorem c4_witness :
    ∃ core ok,
      run_scenario afterHookRunner cexFeature none scenNone ExampleValues.empty =
        some (core ++
          scenarioHookTrace afterHookRunner.after TraceItem.hookAfter cexFeature none
            scenNone ++
          (if ok then [TraceItem.ev ScenarioEvent.Passed] else [])) ∧
      (ok = false → ∃ core2 t, core = core2 ++ [TraceItem.ev t] ∧
          isTerminalItem (TraceItem.ev t) = true) ∧
      (ok = true → core.all (fun item => !isTerminalItem item) = true) :=
  c4_after_hook_order Unit afterHookRunner cexFeature none scenNone ExampleValues.empty

/-- When `lastFailureKind` finds nothing, the list holds no `Failed`
event. -/
theorem lastFailureKind_none : ∀ evs : List ScenarioEvent,
    lastFailureKind evs = none → ∀ e ∈ evs, isFailedEvent e = false := by
  intro evs
  induction evs with
  | nil => intro _ e he; simp at he
  | cons e rest ih =>
    intro h x hx
    have h2 : lastFailureKind rest = none := by
      cases e with
      | Failed k => simp [lastFailureKind] at h
      | Starting a => simpa [lastFailureKind] using h
      | Background a b => simpa [lastFailureKind] using h
      | Step a b => simpa [lastFailureKind] using h
      | Skipped => simpa [lastFailureKind] using h
      | Passed => simpa [lastFailureKind] using h
    rcases List.mem_cons.mp hx with rfl | hx2
    · cases x with
      | Failed k => simp [lastFailureKind] at h
      | Starting a => rfl
      | Background a b => rfl
      | Step a b => rfl
      | Skipped => rfl
      | Passed => rfl
    · exact ih h2 x hx2

/-- A recorded failure is never overwritten by non-failure events. -/
theorem foldl_ruleUpdate_stay_failed (k : FailureKind) :
    ∀ evs : List ScenarioEvent, (∀ e ∈ evs, isFailedEvent e = false) →
      evs.foldl ruleUpdate (some (RuleEvent.Failed k)) = some (RuleEvent.Failed k) := by
  intro evs
  induction evs with
  | nil => intro _; rfl
  | cons e rest ih =>
    intro h
    have he := h e (List.mem_cons_self e rest)
    have hstep : ruleUpdate (some (RuleEvent.Failed k)) e
        = some (RuleEvent.Failed k) := by
      cases e with
      | Failed k2 => simp [isFailedEvent] at he
      | Starting a => rfl
      | Background a b => rfl
      | Step a b => rfl
      | Skipped => rfl
      | Passed => rfl
    rw [List.foldl_cons, hstep]
    exact ih fun x hx => h x (List.mem_cons_of_mem e hx)

/-- A recorded `Skipped` stays recorded while no failure arrives. -/
theorem foldl_ruleUpdate_stay_skipped :
    ∀ evs : List ScenarioEvent, (∀ e ∈ evs, isFailedEvent e = false) →
      evs.foldl ruleUpdate (some RuleEvent.Skipped) = some RuleEvent.Skipped := by
  intro evs
  induction evs with
  | nil => intro _; rfl
  | cons e rest ih =>
    intro h
    have he := h e (List.mem_cons_self e rest)
    have hstep : ruleUpdate (some RuleEvent.Skipped) e = some RuleEvent.Skipped := by
      cases e with
      | Failed k2 => simp [isFailedEvent] at he
      | Starting a => rfl
      | Background a b => rfl
      | Step a b => rfl
      | Skipped => rfl
      | Passed => rfl
    rw [List.foldl_cons, hstep]
    exact ih fun x hx => h x (List.mem_cons_of_mem e hx)

/-- From a recorded `Passed`, absent failures, the fold ends `Skipped`
exactly when some later event is a scenario `Skipped` terminal. -/
theorem foldl_ruleUpdate_from_passed :
    ∀ evs : List ScenarioEvent, (∀ e ∈ evs, isFailedEvent e = false) →
      evs.foldl ruleUpdate (some RuleEvent.Passed) =
        (if evs.contains ScenarioEvent.Skipped then some RuleEvent.Skipped
         else some RuleEvent.Passed) := by
  intro evs
  induction evs with
  | nil => intro _; rfl
  | cons e rest ih =>
    intro h
    have hrest : ∀ x ∈ rest, isFailedEvent x = false :=
      fun x hx => h x (List.mem_cons_of_mem e hx)
    rw [List.foldl_cons]
    cases e with
    | Failed k =>
      have := h _ (List.mem_cons_self _ _)
      simp [isFailedEvent] at this
    | Skipped =>
      rw [show ruleUpdate (some RuleEvent.Passed) ScenarioEvent.Skipped
          = some RuleEvent.Skipped from rfl,
        foldl_ruleUpdate_stay_skipped rest hrest]
      simp [List.contains_cons]
    | Starting a =>
      rw [show ruleUpdate (some RuleEvent.Passed) (ScenarioEvent.Starting a)
          = some RuleEvent.Passed from rfl, ih hrest]
      simp [List.contains_cons, beq_iff_eq]
    | Background a b =>
      rw [show ruleUpdate (some RuleEvent.Passed) (ScenarioEvent.Background a b)
          = some RuleEvent.Passed from rfl, ih hrest]
      simp [List.contains_cons, beq_iff_eq]
    | Step a b =>
      rw [show ruleUpdate (some RuleEvent.Passed) (ScenarioEvent.Step a b)
          = some RuleEvent.Passed from rfl, ih hrest]
      simp [List.contains_cons, beq_iff_eq]
    | Passed =>
      rw [show ruleUpdate (some RuleEvent.Passed) ScenarioEvent.Passed
          = some RuleEvent.Passed from rfl, ih hrest]
      simp [List.contains_cons, beq_iff_eq]

/-- With a failure in the list, the fold ends with the last failure's
kind, whatever the accumulator. -/
theorem foldl_ruleUpdate_failed :
    ∀ (evs : List ScenarioEvent) (k : FailureKind), lastFailureKind evs = some k →
      ∀ acc, evs.foldl ruleUpdate acc = some (RuleEvent.Failed k) := by
  intro evs
  induction evs with
  | nil => intro k h; simp [lastFailureKind] at h
  | cons e rest ih =>
    intro k h acc
    rw [List.foldl_cons]
    cases e with
    | Failed k0 =>
      have hup : ruleUpdate acc (ScenarioEvent.Failed k0)
          = some (RuleEvent.Failed k0) := by cases k0 <;> cases acc <;> rfl
      rw [hup]
      rcases hr : lastFailureKind rest with _ | k1
      · have hk : k0 = k := by simpa [lastFailureKind, hr] using h
        subst hk
        exact foldl_ruleUpdate_stay_failed k0 rest (lastFailureKind_none rest hr)
      · have hk : k1 = k := by simpa [lastFailureKind, hr] using h
        subst hk
        exact ih k1 hr _
    | Starting a => exact ih k (by simpa [lastFailureKind] using h) _
    | Background a b => exact ih k (by simpa [lastFailureKind] using h) _
    | Step a b => exact ih k (by simpa [lastFailureKind] using h) _
    | Skipped => exact ih k (by simpa [lastFailureKind] using h) _
    | Passed => exact ih k (by simpa [lastFailureKind] using h) _

/-- Absent failures, the fold from the empty accumulator ends `Passed`
exactly under `passedThenNoSkip`. -/
theorem foldl_ruleUpdate_none_acc :
    ∀ evs : List ScenarioEvent, lastFailureKind evs = none →
      (evs.foldl ruleUpdate none).getD RuleEvent.Skipped =
        (if passedThenNoSkip evs then RuleEvent.Passed else RuleEvent.Skipped) := by
  intro evs
  induction evs with
  | nil => intro _; rfl
  | cons e rest ih =>
    intro h
    rw [List.foldl_cons]
    cases e with
    | Failed k => simp [lastFailureKind] at h
    | Passed =>
      have h2 : lastFailureKind rest = none := by simpa [lastFailureKind] using h
      rw [show ruleUpdate none ScenarioEvent.Passed = some RuleEvent.Passed from rfl,
        foldl_ruleUpdate_from_passed rest (lastFailureKind_none rest h2)]
      cases hc : rest.contains ScenarioEvent.Skipped with
      | false =>
        have hmem : ScenarioEvent.Skipped ∉ rest := fun hm => by
          have hc2 : rest.contains ScenarioEvent.Skipped = true := List.elem_iff.mpr hm
          rw [hc2] at hc
          simp at hc
        simp [hc, passedThenNoSkip, hmem]
      | true =>
        have hmem : ScenarioEvent.Skipped ∈ rest := List.elem_iff.mp hc
        simp [hc, passedThenNoSkip, hmem]
    | Skipped =>
      have h2 : lastFailureKind rest = none := by simpa [lastFailureKind] using h
      rw [show ruleUpdate none ScenarioEvent.Skipped = none from rfl, ih h2]
      simp [passedThenNoSkip]
    | Starting a =>
      have h2 : lastFailureKind rest = none := by simpa [lastFailureKind] using h
      rw [show ruleUpdate none (ScenarioEvent.Starting a) = none from rfl, ih h2]
      simp [passedThenNoSkip]
    | Background a b =>
      have h2 : lastFailureKind rest = none := by simpa [lastFailureKind] using h
      rw [show ruleUpdate none (ScenarioEvent.Background a b) = none from rfl, ih h2]
      simp [passedThenNoSkip]
    | Step a b =>
      have h2 : lastFailureKind rest = none := by simpa [lastFailureKind] using h
      rw [show ruleUpdate none (ScenarioEvent.Step a b) = none from rfl, ih h2]
      simp [passedThenNoSkip]

/-- The source's streaming rule aggregation equals its closed-form
characterization. -/
theorem ruleTerminal_eq_amended (evs : List ScenarioEvent) :
    ruleTerminal evs = amendedRuleTerminal evs := by
  rcases hf : lastFailureKind evs with _ | k
  · unfold ruleTerminal amendedRuleTerminal
    rw [hf, foldl_ruleUpdate_none_acc evs hf]
  · unfold ruleTerminal amendedRuleTerminal
    rw [hf, foldl_ruleUpdate_failed evs k hf none]
    rfl

/-- The terminal rule event never wraps a scenario event. -/
theorem ruleScenarioEvents_terminal (evs : List ScenarioEvent) :
    ruleScenarioEvents [ruleTerminal evs] = [] := by
  rw [ruleTerminal_eq_amended]
  unfold amendedRuleTerminal
  rcases lastFailureKind evs with _ | k
  · by_cases hp : passedThenNoSkip evs = true <;> simp [hp, ruleScenarioEvents]
  · rfl

/-- Projecting the scenario events back out of the wrapped rule events
recovers them. -/
theorem ruleScenarioEvents_wrapped :
    ∀ runs : List (Scenario × List ScenarioEvent),
      ruleScenarioEvents
          ((runs.map fun p => p.2.map (RuleEvent.Scenario p.1)).flatten) =
        (runs.map fun p => p.2).flatten := by
  intro runs
  induction runs with
  | nil => rfl
  | cons p rest ih =>
    simp only [List.map_cons, List.flatten_cons]
    rw [show ruleScenarioEvents (p.2.map (RuleEvent.Scenario p.1) ++
        (rest.map fun q => q.2.map (RuleEvent.Scenario q.1)).flatten) =
      ruleScenarioEvents (p.2.map (RuleEvent.Scenario p.1)) ++
        ruleScenarioEvents ((rest.map fun q => q.2.map (RuleEvent.Scenario q.1)).flatten)
      from List.filterMap_append _ _ _]
    rw [ih]
    congr 1
    rw [show ruleScenarioEvents (p.2.map (RuleEvent.Scenario p.1)) =
      List.filterMap ((fun r => match r with
        | RuleEvent.Scenario _ e => some e
        | _ => none) ∘ RuleEvent.Scenario p.1) p.2 from List.filterMap_map _ _ _]
    have hcomp : ((fun r => match r with
        | RuleEvent.Scenario _ e => some e
        | _ => none) ∘ RuleEvent.Scenario p.1) = some := by
      funext e
      rfl
    rw [hcomp, List.filterMap_some]

/-- Claim C1, counterexample: the rule terminal does not give panic
precedence.  With two scenarios whose terminals are `Failed(Panic)` then
`Failed(TimedOut)`, `run_rule` ends with `Failed(TimedOut)` (the last
failure overwrites, `runner.rs` lines 542-548), while the claimed
aggregation of the same scenario events yields `Failed(Panic)`. -/
theorem c1_counterexample :
    (run_rule cexRunner cexFeature cexRule).map
        (fun rs => (rs.getLast?, claimRuleTerminal (ruleScenarioEvents rs))) =
      some (some (RuleEvent.Failed FailureKind.TimedOut),
        RuleEvent.Failed FailureKind.Panic) := by
  decide

/-- Claim C1 (amended): the terminal event of every rule run is determined
by its scenarios' events as follows — `Failed(k)` where `k` is the kind of
the LAST failing scenario, if any scenario failed (a later timeout
overrides an earlier panic and vice versa); otherwise `Passed` if some
scenario passed and no scenario after the first passing one was skipped;
otherwise `Skipped`. -/
theorem c1_rule_terminal (W : Type) (R : ScenarioRunner W) (feature : Feature)
    (rule : Rule) (rs : List RuleEvent) (h : run_rule R feature rule = some rs) :
    rs.getLast? = some (amendedRuleTerminal (ruleScenarioEvents rs)) := by
  unfold run_rule at h
  rcases hruns : ruleScenarioRuns R feature rule rule.scenarios with _ | runs
  · rw [hruns] at h
    simp at h
  · rw [hruns] at h
    simp only [Option.some.injEq] at h
    subst h
    have hsplit : ruleScenarioEvents ([RuleEvent.Starting] ++
        ((runs.map fun p => p.2.map (RuleEvent.Scenario p.1)).flatten) ++
        [ruleTerminal ((runs.map fun p => p.2).flatten)]) =
        ruleScenarioEvents [RuleEvent.Starting] ++
        ruleScenarioEvents
          ((runs.map fun p => p.2.map (RuleEvent.Scenario p.1)).flatten) ++
        ruleScenarioEvents [ruleTerminal ((runs.map fun p => p.2).flatten)] := by
      simp only [ruleScenarioEvents]
      rw [List.filterMap_append, List.filterMap_append]
    rw [hsplit, ruleScenarioEvents_wrapped, ruleScenarioEvents_terminal,
      show ruleScenarioEvents [RuleEvent.Starting] = [] from rfl,
      List.nil_append, List.append_nil, List.getLast?_concat, ruleTerminal_eq_amended]

/-- Claim C1, witness for the amended statement: a one-scenario rule whose
scenario passes ends with `RuleEvent.Passed`, matching the
characterization. -/
theorem c1_witness :
    ([RuleEvent.Starting,
      RuleEvent.Scenario scenOk (ScenarioEvent.Starting ExampleValues.empty),
      RuleEvent.Scenario scenOk (ScenarioEvent.Step stepOk StepEvent.Starting),
      RuleEvent.Scenario scenOk
        (ScenarioEvent.Step stepOk (StepEvent.Passed { out := "", err := "" })),
      RuleEvent.Scenario scenOk ScenarioEvent.Passed,
      RuleEvent.Passed] : List RuleEvent).getLast? =
      some (amendedRuleTerminal (ruleScenarioEvents
        [RuleEvent.Starting,
         RuleEvent.Scenario scenOk (ScenarioEvent.Starting ExampleValues.empty),
         RuleEvent.Scenario scenOk (ScenarioEvent.Step stepOk StepEvent.Starting),
         RuleEvent.Scenario scenOk
          (ScenarioEvent.Step stepOk (StepEvent.Passed { out := "", err := "" })),
         RuleEvent.Scenario scenOk ScenarioEvent.Passed,
         RuleEvent.Passed])) :=
  c1_rule_terminal Unit cexRunner cexFeature witRule _ (by decide)

/-- Claim C7, counterexample: scenario names of distinct example rows are
not pairwise distinct.  With name template `have <count> items` and the
two rows `["1"], ["1"]`, both expanded scenarios are named
`have 1 items` (`lib.rs` lines 420-427: the index is appended only when
substitution leaves the name unchanged, which it does not here). -/
theorem c7_counterexample :
    (((expand_examples dupScenario dupExamples).map fun x => x.name) =
      ["have 1 items", "have 1 items"]) ∧
    ¬ ((expand_examples dupScenario dupExamples).map fun x => x.name).Nodup := by
  decide

/-- Claim C7 (amended): expansion of a scenario with an examples table of
N rows produces exactly N concrete scenarios in row order; the i-th one
carries the template steps with every `<header>` occurrence substituted
by row i's values (in text and docstring), cleared examples, copied tags,
and a name obtained by the same substitution from the template name —
with the row index appended when the substitution leaves the name
unchanged.  Names of different rows coincide whenever their substituted
names coincide (so they are not pairwise distinct in general, as the
counterexample shows; they are distinct in the index-appended case and
whenever the substituted names differ). -/
theorem c7_examples_expansion (scenario : Scenario) (ex : Examples)
    (_hex : scenario.examples = some ex) :
    ((expand_examples scenario ex).length = ex.table.rows.length) ∧
    (∀ (i : Nat) (row : List String), ex.table.rows[i]? = some row →
      (expand_examples scenario ex)[i]? =
        some { name := if substitute_name ex.table.header row scenario.name
                  = scenario.name
                then scenario.name ++ " " ++ toString i
                else substitute_name ex.table.header row scenario.name,
               steps := scenario.steps.map (substitute_step ex.table.header row),
               examples := none, tags := scenario.tags,
               position := ex.table.position }) := by
  constructor
  · simp [expand_examples, List.enum_length]
  · intro i row hrow
    simp only [expand_examples]
    rw [List.getElem?_map, List.getElem?_enum, hrow]
    rfl

/-- Claim C7, witness: the spec's outline example (header `count`, rows
1, 2, 3, template step `I have <count> items`) expands to three runs; the
second one reads `I have 2 items` and, the name having no placeholder, is
named `outline 1`. -/
theorem c7_witness :
    ((expand_examples outlineScenario outlineExamples).length = 3) ∧
    ((expand_examples outlineScenario outlineExamples)[1]? =
      some { name := "outline 1",
             steps := [{ ty := StepType.Given, value := "I have 2 items", docstring := none }],
             examples := none, tags := none, position := (0, 0) }) :=
  ⟨(c7_examples_expansion outlineScenario outlineExamples rfl).1,
   by
    have h := (c7_examples_expansion outlineScenario outlineExamples rfl).2 1 ["2"] rfl
    exact h.trans (by decide)⟩

end Cucumber
